import Mathlib

/-- Python exception values raised by the attribute exchange code.  The
string argument keeps the message text of the raise site (with the `%`
placeholders left unformatted). -/
inductive PyErr where
  | keyError (msg : String)
  | valueError (msg : String)
  | axError (msg : String)
  | attributeError (msg : String)
  deriving DecidableEq, Repr

/-- `d.get(k)` on a Python dict modelled as an association list: the value
at the first (hence only) matching key, or `none`. -/
def alGet {α : Type} : List (String × α) → String → Option α
  | [], _ => none
  | p :: rest, k => if p.1 == k then some p.2 else alGet rest k

/-- `d[k] = v` on a Python dict modelled as an association list: replace the
value in place when the key is present, append the pair when it is fresh. -/
def alSet {α : Type} : List (String × α) → String → α → List (String × α)
  | [], k, v => [(k, v)]
  | p :: rest, k, v => if p.1 == k then (k, v) :: rest else p :: alSet rest k v

/-- `d[k]` on a Python dict: the stored value, or `KeyError(k)`. -/
def dictGet {α : Type} (d : List (String × α)) (k : String) : Except PyErr α :=
  match alGet d k with
  | some v => .ok v
  | none => .error (.keyError k)

/-- Python `key.startswith(pre)` (expressed on character lists so that it
reduces definitionally). -/
def strStartsWith (s pre : String) : Bool :=
  pre.toList.isPrefixOf s.toList

/-- Python `s[n:]`: drop the first `n` characters. -/
def strDrop (s : String) (n : Nat) : String :=
  String.mk (s.toList.drop n)

/-- Helper for `pySplitComma`: split a character list at every comma,
keeping empty segments (Python `str.split(',')` semantics). -/
def splitCommaAux : List Char → List (List Char)
  | [] => [[]]
  | c :: rest =>
    match splitCommaAux rest with
    | s :: tail => if c == ',' then [] :: s :: tail else (c :: s) :: tail
    | [] => [[]]

/-- Python `s.split(',')`. -/
def pySplitComma (s : String) : List String :=
  (splitCommaAux s.toList).map String.mk

/-- Digit-sequence value for `pyInt`; `none` on a non-digit or an empty
sequence. -/
def readDigits : List Char → Nat → Option Nat
  | [], acc => some acc
  | c :: rest, acc =>
    if c.isDigit then readDigits rest (acc * 10 + (c.toNat - 48)) else none

/-- A non-empty all-digit character sequence as a number. -/
def parseNatDigits : List Char → Option Nat
  | [] => none
  | c :: rest => readDigits (c :: rest) 0

/-- The signed integer literal accepted by Python `int`, after stripping. -/
def pyIntChars : List Char → Option Int
  | '-' :: rest => (parseNatDigits rest).map (fun n => -(n : Int))
  | '+' :: rest => (parseNatDigits rest).map (fun n => (n : Int))
  | cs => (parseNatDigits cs).map (fun n => (n : Int))

/-- Python `int(s)`: parse a base-10 integer (leading/trailing whitespace
allowed, optional sign), raising `ValueError` otherwise. -/
def pyInt (s : String) : Except PyErr Int :=
  let stripped :=
    ((s.toList.dropWhile Char.isWhitespace).reverse.dropWhile
      Char.isWhitespace).reverse
  match pyIntChars stripped with
  | some n => .ok n
  | none => .error (.valueError "invalid literal for int() with base 10")

/-- CPython 2 `n == c` for `n` a non-negative int and `c` an `int or None`:
`int == None` is `False`. -/
def py2EqNat (n : Nat) : Option Int → Bool
  | none => false
  | some c => (n : Int) == c

/-- CPython 2 `n > c` for `n` a non-negative int and `c` an `int or None`:
`None` sorts below every integer, so `n > None` is `True` for every `n`. -/
def py2GtNat (n : Nat) : Option Int → Bool
  | none => true
  | some c => (n : Int) > c

/-- Python `x in l` over a list of strings. -/
def pyIn (a : String) : List String → Bool
  | [] => false
  | x :: rest => if x == a then true else pyIn a rest

/-- Modelled from the spec: `openid.message.NamespaceMap` is not part of the
given source.  Per the spec it is a bidirectional mapping between a type
identifier (URI) and a short alias that allocates a fresh alias when none is
supplied and rejects conflicting re-registration; it supports lookup in both
directions and iteration over (uri, alias) pairs in registration order. -/
structure NamespaceMap where
  pairs : List (String × String)
  deriving DecidableEq, Repr

/-- Look up the URI registered for an alias. -/
def NamespaceMap.getNamespaceURI (m : NamespaceMap) (al : String) : Option String :=
  (m.pairs.find? (fun p => p.2 == al)).map (fun p => p.1)

/-- Look up the alias registered for a URI. -/
def NamespaceMap.getAlias (m : NamespaceMap) (uri : String) : Option String :=
  (m.pairs.find? (fun p => p.1 == uri)).map (fun p => p.2)

/-- Modelled from the spec: register `al` for `uri`, failing (KeyError) when
either the alias is already bound to a different URI or the URI is already
bound to a different alias; returns the alias together with the updated
registry, and is a no-op when the exact pair is already registered. -/
def NamespaceMap.addAlias (m : NamespaceMap) (uri al : String) :
    Except PyErr (String × NamespaceMap) :=
  match m.getNamespaceURI al with
  | some u => if u == uri then .ok (al, m)
      else .error (.keyError "requested alias is already in use")
  | none =>
    match m.getAlias uri with
    | some a => if a == al then .ok (al, m)
        else .error (.keyError "namespace uri is already mapped to an alias")
    | none => .ok (al, ⟨m.pairs ++ [(uri, al)]⟩)

/-- First alias of the form `ext<i>` not yet in use (a fresh one exists among
the first `pairs.length + 1` candidates by pigeonhole). -/
def NamespaceMap.freshAlias (m : NamespaceMap) : String :=
  let used := m.pairs.map (fun p => p.2)
  let candidates := (List.range (m.pairs.length + 1)).map (fun i => "ext" ++ toString i)
  (candidates.find? (fun a => !used.contains a)).getD "ext"

/-- Modelled from the spec: register `uri` without caring which alias it gets,
returning the existing alias when the URI is already registered and a freshly
allocated `ext<i>` alias otherwise. -/
def NamespaceMap.add (m : NamespaceMap) (uri : String) : String × NamespaceMap :=
  match m.getAlias uri with
  | some a => (a, m)
  | none =>
    let a := m.freshAlias
    (a, ⟨m.pairs ++ [(uri, a)]⟩)

/-- `AttrInfo`: one attribute of an attribute exchange request (fields in the
source constructor's parameter order; the source defaults are
`count=None, required=False, alias=None`). -/
structure AttrInfo where
  type_uri : String
  count : Option Int
  required : Bool
  al : Option String
  deriving DecidableEq, Repr

/-- `AXMessage._checkMode`: raise `AXError` when `ax_args.get('mode')` is not
the expected mode string. -/
def checkMode (expected : String) (ax_args : List (String × String)) : Except PyErr Unit :=
  if alGet ax_args "mode" == some expected then .ok ()
  else .error (.axError "Expected mode %r; got %r")

/-- `toTypeURIs`: resolve a comma-separated list of aliases (possibly `None`
or empty, both giving `[]`) through a namespace map, raising `KeyError` for
an alias with no registered type. -/
def toTypeURIs (namespace_map : NamespaceMap) (alias_list_s : Option String) :
    Except PyErr (List String) :=
  match alias_list_s with
  | none => .ok []
  | some s =>
    if s == "" then .ok []
    else (pySplitComma s).mapM (fun al =>
      match namespace_map.getNamespaceURI al with
      | none => .error (.keyError "No type is defined for attribute name %r")
      | some type_uri => .ok type_uri)

/-- `FetchRequest`: requested attributes keyed by type URI (insertion order)
plus the optional update URL. -/
structure FetchRequest where
  requested_attributes : List (String × AttrInfo)
  update_url : Option String
  deriving DecidableEq, Repr

/-- `FetchRequest(update_url)`: a fresh, empty request. -/
def FetchRequest.make (update_url : Option String) : FetchRequest :=
  ⟨[], update_url⟩

/-- `FetchRequest.add`: insert an attribute, raising `KeyError` when its
type URI is already requested. -/
def FetchRequest.add (self : FetchRequest) (attrib : AttrInfo) :
    Except PyErr FetchRequest :=
  if (alGet self.requested_attributes attrib.type_uri).isSome then
    .error (.keyError "The attribute %r has already been requested")
  else
    .ok { self with
          requested_attributes :=
            alSet self.requested_attributes attrib.type_uri attrib }

/-- The per-attribute loop of `FetchRequest.getExtensionArgs`: resolve each
attribute's alias (auto-allocated when none is fixed), partition aliases into
the `required` and `if_available` lists, and emit `count.<alias>` (when set)
and `type.<alias>`. -/
def serializeReqAttrs :
    List (String × AttrInfo) → NamespaceMap → List String → List String →
    List (String × String) →
    Except PyErr (List String × List String × List (String × String))
  | [], _, required, if_available, ax_args => .ok (required, if_available, ax_args)
  | (type_uri, attrib) :: rest, aliases, required, if_available, ax_args => do
    let (al, aliases) ←
      match attrib.al with
      | none => Except.ok (aliases.add type_uri)
      | some a => aliases.addAlias type_uri a
    let (required, if_available) :=
      if attrib.required then (required ++ [al], if_available)
      else (required, if_available ++ [al])
    let ax_args :=
      match attrib.count with
      | some c => alSet ax_args ("count." ++ al) (toString c)
      | none => ax_args
    serializeReqAttrs rest aliases required if_available
      (alSet ax_args ("type." ++ al) type_uri)

/-- `FetchRequest.getExtensionArgs`: serialize the request, starting from
`{mode: fetch_request}` and joining the alias lists under `required` /
`if_available` (each key omitted when its list is empty).  Note the source
never emits `update_url`. -/
def FetchRequest.getExtensionArgs (self : FetchRequest) :
    Except PyErr (List (String × String)) := do
  let (required, if_available, ax_args) ←
    serializeReqAttrs self.requested_attributes ⟨[]⟩ [] []
      [("mode", "fetch_request")]
  let ax_args :=
    if required.isEmpty then ax_args
    else alSet ax_args "required" (String.intercalate "," required)
  let ax_args :=
    if if_available.isEmpty then ax_args
    else alSet ax_args "if_available" (String.intercalate "," if_available)
  .ok ax_args

/-- The `count_s = ax_args.get('count.' + alias); if count_s: count =
int(count_s) else: count = None` fragment of `FetchRequest.parseExtensionArgs`:
a missing or empty count string (both falsy) gives no count, anything else is
parsed with `int`. -/
def parseCountField (full : List (String × String)) (al : String) :
    Except PyErr (Option Int) :=
  match alGet full ("count." ++ al) with
  | none => .ok none
  | some s => if s == "" then .ok none else (pyInt s).map some

/-- The first loop of `FetchRequest.parseExtensionArgs`: for every
`type.<alias>` key register the alias, read the optional `count.<alias>`
via `parseCountField`, and `add` an `AttrInfo` with `required = False`.
`full` is the complete argument dict (count lookups consult it), the second
argument the iteration remainder. -/
def parseTypeKeys (full : List (String × String)) :
    List (String × String) → NamespaceMap → FetchRequest →
    Except PyErr (NamespaceMap × FetchRequest)
  | [], aliases, self => .ok (aliases, self)
  | (key, value) :: rest, aliases, self =>
    if strStartsWith key "type." then do
      let al := strDrop key 5
      let type_uri := value
      let (_, aliases) ← aliases.addAlias type_uri al
      let count ← parseCountField full al
      let self ← self.add
        { type_uri := type_uri, count := count, required := false, al := some al }
      parseTypeKeys full rest aliases self
    else parseTypeKeys full rest aliases self

/-- The second loop of `FetchRequest.parseExtensionArgs`:
`self.requested_attributes[type_uri].required = True` for each resolved
required type URI (in list order), raising `KeyError` for an unknown one. -/
def markRequired : List String → FetchRequest → Except PyErr FetchRequest
  | [], self => .ok self
  | uri :: rest, self =>
    match alGet self.requested_attributes uri with
    | none => .error (.keyError uri)
    | some a =>
      markRequired rest
        { self with
          requested_attributes :=
            alSet self.requested_attributes uri { a with required := true } }

/-- The final loop of `FetchRequest.parseExtensionArgs`: every registered
type URI must occur in `required ++ if_available`, otherwise `ValueError`. -/
def checkCoverage (pairs : List (String × String)) (all_type_uris : List String) :
    Except PyErr Unit :=
  match pairs with
  | [] => .ok ()
  | p :: rest =>
    if pyIn p.1 all_type_uris then checkCoverage rest all_type_uris
    else .error (.valueError
      "Type URI %r was in the request but not present in required or if_available")

/-- `FetchRequest.parseExtensionArgs`: check the mode, register every
`type.<alias>` declaration, resolve and apply the `required` list, resolve
`if_available`, check that every declared type URI is covered by one of the
two lists, and copy `update_url`. -/
def FetchRequest.parseExtensionArgs (self : FetchRequest)
    (ax_args : List (String × String)) : Except PyErr FetchRequest := do
  let _ ← checkMode "fetch_request" ax_args
  let (aliases, self) ← parseTypeKeys ax_args ax_args ⟨[]⟩ self
  let required ← toTypeURIs aliases (alGet ax_args "required")
  let self ← markRequired required self
  let if_available ← toTypeURIs aliases (alGet ax_args "if_available")
  let all_type_uris := required ++ if_available
  let _ ← checkCoverage aliases.pairs all_type_uris
  .ok { self with update_url := alGet ax_args "update_url" }

/-- `FetchRequest.getRequiredAttrs`: the type URIs marked required. -/
def FetchRequest.getRequiredAttrs (self : FetchRequest) : List String :=
  (self.requested_attributes.filter (fun p => p.2.required)).map (fun p => p.1)

/-- The alias-registration loop of `parseAXValues`: every `type.<alias>` key
binds its value (a type URI) to the alias. -/
def buildAXAliases :
    List (String × String) → NamespaceMap → Except PyErr NamespaceMap
  | [], aliases => .ok aliases
  | (key, value) :: rest, aliases =>
    if strStartsWith key "type." then
      match aliases.addAlias value (strDrop key 5) with
      | .ok (_, aliases2) => buildAXAliases rest aliases2
      | .error e => .error e
    else buildAXAliases rest aliases

/-- The inner loop of the counted branch of `parseAXValues`: read
`value.<alias>.<i>` for each listed index `i`, each required to be present. -/
def readValuesLoop (ax_args : List (String × String)) (al : String) :
    List Nat → Except PyErr (List String)
  | [] => .ok []
  | i :: rest => do
    let v ← dictGet ax_args ("value." ++ al ++ "." ++ toString i)
    let vs ← readValuesLoop ax_args al rest
    .ok (v :: vs)

/-- The per-alias body of `parseAXValues`: with no `count.<alias>` key the
type is a singleton (flag `true`) whose required `value.<alias>` decodes the
empty string to no values and anything else to one value; with a count the
string is parsed by `int` and `value.<alias>.1 .. value.<alias>.<count>` are
read in order (`range(1, count + 1)`, hence empty for a count below one). -/
def extractAXValues (ax_args : List (String × String)) (al : String) :
    Except PyErr (Bool × List String) :=
  match alGet ax_args ("count." ++ al) with
  | none => do
    let value ← dictGet ax_args ("value." ++ al)
    .ok (true, if value == "" then [] else [value])
  | some count_s => do
    let count ← pyInt count_s
    let values ← readValuesLoop ax_args al (List.range' 1 count.toNat)
    .ok (false, values)

/-- The accumulation loop of `parseAXValues` over the registered
(type URI, alias) pairs: singleton types are appended to the singleton list
and every type's decoded values are stored under its URI. -/
def collectAXData (ax_args : List (String × String)) :
    List (String × String) → List String → List (String × List String) →
    Except PyErr (List String × List (String × List String))
  | [], singletons, data => .ok (singletons, data)
  | (type_uri, al) :: rest, singletons, data => do
    let (isSingleton, values) ← extractAXValues ax_args al
    collectAXData ax_args rest
      (if isSingleton then singletons ++ [type_uri] else singletons)
      (alSet data type_uri values)

/-- `parseAXValues`: decode `{type.*, count.*, value.*}` wire arguments into
the list of singleton type URIs and the type-URI-indexed value mapping. -/
def parseAXValues (ax_args : List (String × String)) :
    Except PyErr (List String × List (String × List String)) := do
  let aliases ← buildAXAliases ax_args ⟨[]⟩
  collectAXData ax_args aliases.pairs [] []

/-- `FetchResponse`: the optional bound request, the per-type value lists,
and the update URL. -/
structure FetchResponse where
  request : Option FetchRequest
  data : List (String × List String)
  update_url : Option String
  deriving DecidableEq, Repr

/-- `FetchResponse(request)`: when a request is supplied (a request object is
always truthy), pre-seed an empty value list for every requested type URI and
copy the request's update URL. -/
def FetchResponse.make (request : Option FetchRequest) : FetchResponse :=
  match request with
  | none => ⟨none, [], none⟩
  | some req =>
    ⟨some req, req.requested_attributes.map (fun p => (p.1, ([] : List String))),
     req.update_url⟩

/-- `FetchResponse.addValue`: look up the bound request's count for the type
(dereferencing `self.request`, an `AttributeError` when unbound), refuse
(`ValueError`) when the stored length equals it — under CPython 2 this
comparison is `False` whenever the count is `None` — and otherwise append. -/
def FetchResponse.addValue (self : FetchResponse) (type_uri value : String) :
    Except PyErr FetchResponse := do
  let req ←
    match self.request with
    | none => Except.error (.attributeError
        "NoneType object has no attribute requested_attributes")
    | some q => Except.ok q
  let attrib ← dictGet req.requested_attributes type_uri
  let values ← dictGet self.data type_uri
  if py2EqNat values.length attrib.count then
    .error (.valueError
      "Cannot add any more values for the attribute %r. The request asked for up to %s values.")
  else
    .ok { self with data := alSet self.data type_uri (values ++ [value]) }

/-- `FetchResponse.setValues`: refuse (`ValueError`) when more values are
given than the bound request's count allows — under CPython 2 `len(values) >
None` is `True`, so an unset count refuses every list — then require the
type URI to be a data key (`KeyError`), and replace the stored sequence. -/
def FetchResponse.setValues (self : FetchResponse) (type_uri : String)
    (values : List String) : Except PyErr FetchResponse := do
  let req ←
    match self.request with
    | none => Except.error (.attributeError
        "NoneType object has no attribute requested_attributes")
    | some q => Except.ok q
  let attrib ← dictGet req.requested_attributes type_uri
  if py2GtNat values.length attrib.count then
    .error (.valueError
      "Attempted to send more than the allowed number of values in the response for %r. Up to %s allowed, got %s")
  else if (alGet self.data type_uri).isNone then
    .error (.keyError type_uri)
  else
    .ok { self with data := alSet self.data type_uri values }

/-- The per-attribute loop of `FetchResponse.getExtensionArgs`: fetch the
stored values, resolve the alias, apply the `len(values) > count` guard
(always raising when the count is `None`, by CPython 2 ordering — the
singleton branch below it is unreachable but kept faithful to the source
text), and emit the value, count and type keys. -/
def serializeRespAttrs (self : FetchResponse) :
    List (String × AttrInfo) → NamespaceMap → List (String × String) →
    Except PyErr (List (String × String))
  | [], _, ax_args => .ok ax_args
  | (type_uri, attr_request) :: rest, aliases, ax_args => do
    let values ← dictGet self.data type_uri
    let (al, aliases) ←
      match attr_request.al with
      | none => Except.ok (aliases.add type_uri)
      | some a => (aliases.addAlias type_uri a).map (fun p => (a, p.2))
    if py2GtNat values.length attr_request.count then
      .error (.valueError
        "More than the number of requested values were specified for %r")
    else
      match attr_request.count with
      | none => do
        let value ←
          match values with
          | [] => Except.ok ""
          | [v] => Except.ok v
          | _ => Except.error (.valueError "too many values to unpack")
        serializeRespAttrs self rest aliases
          (alSet (alSet ax_args ("value." ++ al) value) ("type." ++ al) type_uri)
      | some _ =>
        let ax_args :=
          (values.foldl (fun (acc : List (String × String) × Nat) v =>
            (alSet acc.1 ("value." ++ al ++ "." ++ toString (acc.2 + 1)) v,
             acc.2 + 1)) (ax_args, 0)).1
        let ax_args := alSet ax_args ("count." ++ al) (toString values.length)
        serializeRespAttrs self rest aliases
          (alSet ax_args ("type." ++ al) type_uri)

/-- `FetchResponse.getExtensionArgs`: build the argument dict starting from
`{mode: fetch_response}` plus a truthy `update_url`, run the per-attribute
serialization loop — and then end without a `return` statement, so that in
Python the call evaluates to `None` (modelled as a successful `none`); the
built dict is discarded. -/
def FetchResponse.getExtensionArgs (self : FetchResponse) :
    Except PyErr (Option (List (String × String))) := do
  let ax_args : List (String × String) := [("mode", "fetch_response")]
  let ax_args :=
    match self.update_url with
    | some u => if u == "" then ax_args else alSet ax_args "update_url" u
    | none => ax_args
  match self.request with
  | none => .error (.attributeError
      "NoneType object has no attribute requested_attributes")
  | some req => do
    let _ ← serializeRespAttrs self req.requested_attributes ⟨[]⟩ ax_args
    .ok none

/-- `FetchResponse.parseExtensionArgs`: check the mode, decode the data
mapping with `parseAXValues` (discarding the singleton list), and copy
`update_url`. -/
def FetchResponse.parseExtensionArgs (self : FetchResponse)
    (ax_args : List (String × String)) : Except PyErr FetchResponse := do
  let _ ← checkMode "fetch_response" ax_args
  let (_, data) ← parseAXValues ax_args
  .ok { self with data := data, update_url := alGet ax_args "update_url" }

/-- Modelled from the spec: the consumer's `SuccessResponse` is not part of
the given source.  It supplies the extension's unqualified arguments either
restricted to the signed ones (`getSignedNS`) or unrestricted
(`message.getArgs`). -/
structure SuccessResponse where
  signedNSArgs : List (String × String)
  allNSArgs : List (String × String)
  deriving DecidableEq, Repr

/-- `FetchResponse.fromSuccessResponse`: build an unbound response, pick the
signed or unsigned argument set, parse it into the fresh object — and end
without a `return` statement, so the call evaluates to `None`. -/
def FetchResponse.fromSuccessResponse (success_response : SuccessResponse)
    (signed : Bool) : Except PyErr (Option FetchResponse) := do
  let self := FetchResponse.make none
  let ax_args :=
    if signed then success_response.signedNSArgs else success_response.allNSArgs
  let _ ← self.parseExtensionArgs ax_args
  .ok none

/-- `FetchResponse.getSingle`: the stored values for the type URI (`KeyError`
when absent); the default for an empty list, the sole element for a
one-element list, `ValueError` otherwise. -/
def FetchResponse.getSingle (self : FetchResponse) (type_uri : String)
    (default : Option String) : Except PyErr (Option String) := do
  let values ← dictGet self.data type_uri
  match values with
  | [] => .ok default
  | [v] => .ok (some v)
  | _ => .error (.valueError "More than one value present for %r")

/-- `FetchResponse.get`: the stored value list (`KeyError` when absent). -/
def FetchResponse.get (self : FetchResponse) (type_uri : String) :
    Except PyErr (List String) :=
  dictGet self.data type_uri

/-- `FetchResponse.count`: the number of stored values (`KeyError` when the
type URI is absent). -/
def FetchResponse.count (self : FetchResponse) (type_uri : String) :
    Except PyErr Nat :=
  (self.get type_uri).map List.length

/-- C1 input: a request with one attribute of fixed alias `a` and count 2. -/
def reqC1 : FetchRequest :=
  ⟨[("http://a/", ⟨"http://a/", some 2, false, some "a"⟩)], none⟩

/-- C1 input: the response bound to `reqC1` after `setValues` stored one
value. -/
def respC1set : FetchResponse :=
  ⟨some reqC1, [("http://a/", ["x"])], none⟩

/-- C2 input: a request with `update_url` set and one required attribute with
no fixed alias and no count. -/
def reqC2 : FetchRequest :=
  ⟨[("http://a/", ⟨"http://a/", none, true, none⟩)], some "http://cb/"⟩

/-- C2: the wire arguments `reqC2` serializes to. -/
def argsC2 : List (String × String) :=
  [("mode", "fetch_request"), ("type.ext0", "http://a/"), ("required", "ext0")]

/-- C2: the request recovered by parsing `argsC2`. -/
def parsedC2 : FetchRequest :=
  ⟨[("http://a/", ⟨"http://a/", none, true, some "ext0"⟩)], none⟩

/-- C3 input: a request with one attribute of fixed alias `a` and no count. -/
def reqC3 : FetchRequest :=
  ⟨[("http://a/", ⟨"http://a/", none, false, some "a"⟩)], none⟩

/-- C4 input: a request with one attribute of fixed alias `b` and no count. -/
def reqC4 : FetchRequest :=
  ⟨[("http://b/", ⟨"http://b/", none, false, some "b"⟩)], none⟩

/-- C4: the bound response after one `addValue`. -/
def respC4one : FetchResponse :=
  ⟨some reqC4, [("http://b/", ["v1"])], none⟩

/-- C4: the bound response after a second `addValue`. -/
def respC4two : FetchResponse :=
  ⟨some reqC4, [("http://b/", ["v1", "v2"])], none⟩

/-- C5 input: a request with one attribute of fixed alias `c` and count 1. -/
def reqC5 : FetchRequest :=
  ⟨[("http://c/", ⟨"http://c/", some 1, false, some "c"⟩)], none⟩

/-- C6 counterexample input: the sole declared type URI is covered by the
`required` list, yet its count field is not an integer. -/
def argsC6 : List (String × String) :=
  [("mode", "fetch_request"), ("type.a", "http://u/"), ("count.a", "x"),
   ("required", "a")]

/-- C6 witness input: well-formed fetch-request arguments whose declared
type URI occurs in the `required` list. -/
def argsC6w : List (String × String) :=
  [("mode", "fetch_request"), ("type.b", "http://u/"), ("required", "b")]

/-- C6 witness input: the request `argsC6w` parses to. -/
def parsedC6w : FetchRequest :=
  ⟨[("http://u/", ⟨"http://u/", none, true, some "b"⟩)], none⟩

/-- C7 witness input: wire arguments with one counted alias holding two
values. -/
def argsC7w : List (String × String) :=
  [("type.a", "http://u/"), ("count.a", "2"),
   ("value.a.1", "x"), ("value.a.2", "y")]

/-! ### Supporting lemmas and claim theorems -/

/-- Inversion for a successful `Except` bind: the first step succeeded and
the continuation succeeded on its result. -/
theorem exceptBindOk {α β : Type} {x : Except PyErr α} {f : α → Except PyErr β}
    {b : β} (h : (x >>= f) = .ok b) : ∃ a, x = .ok a ∧ f a = .ok b := by
  cases x with
  | ok a => exact ⟨a, rfl, h⟩
  | error e => exact absurd h (by simp [Bind.bind, Except.bind])

/-- C1: the fetch-response round trip fails on the code.  For a response
bound to a request and populated via `setValues` within the count limits,
`getExtensionArgs` does not produce the wire arguments at all: the source
function has no `return` statement, so the call evaluates to `None` and
there is nothing `parseExtensionArgs` could recover the data from. -/
theorem ax_C1_no_return :
    (FetchResponse.make (some reqC1)).setValues "http://a/" ["x"]
      = .ok respC1set
    ∧ respC1set.getExtensionArgs = .ok none := by
  exact ⟨rfl, rfl⟩

/-- C2: the fetch-request round trip loses `update_url`.  Serializing a
request whose `update_url` is set produces wire arguments with no
`update_url` key (`FetchRequest.getExtensionArgs` never emits it), so
parsing them back yields a request whose `update_url` is `None`. -/
theorem ax_C2_update_url_lost :
    reqC2.update_url = some "http://cb/"
    ∧ reqC2.getExtensionArgs = .ok argsC2
    ∧ alGet argsC2 "update_url" = none
    ∧ (FetchRequest.make none).parseExtensionArgs argsC2 = .ok parsedC2
    ∧ parsedC2.update_url = none := by
  exact ⟨rfl, rfl, rfl, rfl, rfl⟩

/-- C3: the unset-count singleton encoding is unreachable.  For a bound
response whose descriptor has no count and zero stored values,
`getExtensionArgs` raises `ValueError` from the `len(values) >
attr_request.count` guard (true under CPython 2 whenever the count is
`None`) instead of emitting `value.<alias>` as the empty string.  The parse
direction of the claim does hold: an empty `value.<alias>` string decodes
to an empty value sequence. -/
theorem ax_C3_singleton_unreachable :
    (FetchResponse.make (some reqC3)).getExtensionArgs
      = .error (.valueError
          "More than the number of requested values were specified for %r")
    ∧ parseAXValues [("type.a", "http://a/"), ("value.a", "")]
      = .ok (["http://a/"], [("http://a/", [])]) := by
  exact ⟨rfl, rfl⟩

/-- C4: with an unset count the code enforces no ceiling of one in
`addValue` and rejects everything in `setValues`.  `len(data) == None` is
`False` under CPython 2, so a second `addValue` succeeds where the claim
says it must fail; `len(values) > None` is `True`, so `setValues` raises
`ValueError` even for the empty list where the claim says it must
succeed. -/
theorem ax_C4_unset_count_checks :
    (FetchResponse.make (some reqC4)).addValue "http://b/" "v1" = .ok respC4one
    ∧ respC4one.addValue "http://b/" "v2" = .ok respC4two
    ∧ respC4two.data = [("http://b/", ["v1", "v2"])]
    ∧ (FetchResponse.make (some reqC4)).setValues "http://b/" []
      = .error (.valueError
          "Attempted to send more than the allowed number of values in the response for %r. Up to %s allowed, got %s") := by
  exact ⟨rfl, rfl, rfl, rfl⟩

/-- C9: `FetchResponse.fromSuccessResponse` never hands back the response it
builds and parses into: whenever the call returns (rather than raising), its
value is `None`. -/
theorem ax_C9_returns_none (sr : SuccessResponse) (signed : Bool)
    (res : Option FetchResponse)
    (h : FetchResponse.fromSuccessResponse sr signed = .ok res) : res = none := by
  unfold FetchResponse.fromSuccessResponse at h
  obtain ⟨r, -, hr⟩ := exceptBindOk h
  simpa using hr.symm

/-- C9 witness: a concrete successful exchange whose parse succeeds, on
which `fromSuccessResponse` indeed returns `None`. -/
theorem ax_C9_witness :
    ∃ res, FetchResponse.fromSuccessResponse
      ⟨[("mode", "fetch_response")], []⟩ true = .ok res ∧ res = none :=
  ⟨none, rfl, ax_C9_returns_none ⟨[("mode", "fetch_response")], []⟩ true none rfl⟩

/-- C10: on a response constructed without a bound request, `addValue` and
`setValues` fail for every type URI and every value argument, because the
descriptor lookup dereferences the absent request (an `AttributeError`)
before any other check. -/
theorem ax_C10_unbound_mutators_fail (data : List (String × List String))
    (uu : Option String) (type_uri value : String) (values : List String) :
    FetchResponse.addValue ⟨none, data, uu⟩ type_uri value
      = .error (.attributeError
          "NoneType object has no attribute requested_attributes")
    ∧ FetchResponse.setValues ⟨none, data, uu⟩ type_uri values
      = .error (.attributeError
          "NoneType object has no attribute requested_attributes") :=
  ⟨rfl, rfl⟩

/-- C5: with a concrete declared count `N`, `addValue` fails with the
value-limit `ValueError` exactly when `N` values are already stored (and
appends otherwise), and `setValues` fails with its value-limit `ValueError`
exactly when more than `N` values are supplied (and replaces the stored
sequence otherwise). -/
theorem ax_C5_count_enforcement (req : FetchRequest) (r : FetchResponse)
    (type_uri v : String) (values vs : List String) (attrib : AttrInfo) (N : Int)
    (hreq : r.request = some req)
    (hattr : dictGet req.requested_attributes type_uri = .ok attrib)
    (hcount : attrib.count = some N)
    (hdata : dictGet r.data type_uri = .ok vs) :
    ((vs.length : Int) = N →
      r.addValue type_uri v = .error (.valueError
        "Cannot add any more values for the attribute %r. The request asked for up to %s values."))
    ∧ ((vs.length : Int) ≠ N →
      r.addValue type_uri v
        = .ok { r with data := alSet r.data type_uri (vs ++ [v]) })
    ∧ ((values.length : Int) > N →
      r.setValues type_uri values = .error (.valueError
        "Attempted to send more than the allowed number of values in the response for %r. Up to %s allowed, got %s"))
    ∧ ((values.length : Int) ≤ N →
      r.setValues type_uri values
        = .ok { r with data := alSet r.data type_uri values }) := by
  have hd : alGet r.data type_uri = some vs := by
    unfold dictGet at hdata
    cases hal : alGet r.data type_uri with
    | some w => rw [hal] at hdata; simpa using hdata
    | none => rw [hal] at hdata; simp at hdata
  refine ⟨fun h1 => ?_, fun h2 => ?_, fun h3 => ?_, fun h4 => ?_⟩
  · simp [FetchResponse.addValue, hreq, hattr, hdata, hcount, py2EqNat,
      Bind.bind, Except.bind, h1]
  · simp [FetchResponse.addValue, hreq, hattr, hdata, hcount, py2EqNat,
      Bind.bind, Except.bind, h2]
  · simp [FetchResponse.setValues, hreq, hattr, hcount, py2GtNat,
      Bind.bind, Except.bind, h3]
  · simp [FetchResponse.setValues, hreq, hattr, hcount, py2GtNat,
      Bind.bind, Except.bind, hd, not_lt_of_le h4]

/-- C5 witness: on a bound response with declared count 1 and no stored
values, `addValue` appends and `setValues` with two values fails. -/
theorem ax_C5_witness :
    (FetchResponse.make (some reqC5)).addValue "http://c/" "v"
      = .ok ⟨some reqC5, [("http://c/", ["v"])], none⟩
    ∧ (FetchResponse.make (some reqC5)).setValues "http://c/" ["a", "b"]
      = .error (.valueError
        "Attempted to send more than the allowed number of values in the response for %r. Up to %s allowed, got %s") := by
  have h := ax_C5_count_enforcement reqC5 (FetchResponse.make (some reqC5))
    "http://c/" "v" ["a", "b"] [] ⟨"http://c/", some 1, false, some "c"⟩ 1
    rfl rfl rfl rfl
  exact ⟨h.2.1 (by decide), h.2.2.1 (by decide)⟩

/-- C8: for a type URI present in the data, `getSingle` returns the default
on no values, the sole value on one, and a multi-value `ValueError` on more;
`get` returns the stored sequence and `count` its length; and all three
raise `KeyError` for an absent type URI. -/
theorem ax_C8_accessors (r : FetchResponse) (type_uri : String)
    (default : Option String) (vs : List String)
    (h : dictGet r.data type_uri = .ok vs) :
    (vs = [] → r.getSingle type_uri default = .ok default)
    ∧ (∀ v, vs = [v] → r.getSingle type_uri default = .ok (some v))
    ∧ (2 ≤ vs.length → r.getSingle type_uri default
        = .error (.valueError "More than one value present for %r"))
    ∧ r.get type_uri = .ok vs
    ∧ FetchResponse.count r type_uri = .ok vs.length
    ∧ (∀ (r2 : FetchResponse) (t2 : String), alGet r2.data t2 = none →
        r2.getSingle t2 default = .error (.keyError t2)
        ∧ r2.get t2 = .error (.keyError t2)
        ∧ FetchResponse.count r2 t2 = .error (.keyError t2)) := by
  refine ⟨fun h0 => ?_, fun v h1 => ?_, fun h2 => ?_, ?_, ?_, fun r2 t2 h3 => ?_⟩
  · simp [FetchResponse.getSingle, h, h0, Bind.bind, Except.bind]
  · simp [FetchResponse.getSingle, h, h1, Bind.bind, Except.bind]
  · match vs, h2 with
    | v1 :: v2 :: rest, _ =>
      simp [FetchResponse.getSingle, h, Bind.bind, Except.bind]
  · simp [FetchResponse.get, h]
  · simp [FetchResponse.count, FetchResponse.get, h, Except.map]
  · refine ⟨?_, ?_, ?_⟩
    · simp [FetchResponse.getSingle, dictGet, h3, Bind.bind, Except.bind]
    · simp [FetchResponse.get, dictGet, h3]
    · simp [FetchResponse.count, FetchResponse.get, dictGet, h3, Except.map]

/-- C8 witness: concrete accessor behaviour on a response holding one type
URI with two values. -/
theorem ax_C8_witness :
    (FetchResponse.getSingle ⟨none, [("http://d/", ["x", "y"])], none⟩
      "http://d/" (some "dflt")
      = .error (.valueError "More than one value present for %r"))
    ∧ (FetchResponse.get ⟨none, [("http://d/", ["x", "y"])], none⟩ "http://d/"
      = .ok ["x", "y"])
    ∧ (FetchResponse.count ⟨none, [("http://d/", ["x", "y"])], none⟩ "http://d/"
      = .ok 2)
    ∧ (FetchResponse.get ⟨none, [("http://d/", ["x", "y"])], none⟩ "http://e/"
      = .error (.keyError "http://e/")) := by
  have h := ax_C8_accessors ⟨none, [("http://d/", ["x", "y"])], none⟩
    "http://d/" (some "dflt") ["x", "y"] rfl
  exact ⟨h.2.2.1 (by decide), h.2.2.2.1, h.2.2.2.2.1,
    (h.2.2.2.2.2 ⟨none, [("http://d/", ["x", "y"])], none⟩ "http://e/" rfl).2.1⟩

/-- A successful `dictGet` is exactly a successful `alGet`. -/
theorem alGet_of_dictGet {α : Type} {d : List (String × α)} {k : String} {v : α}
    (h : dictGet d k = .ok v) : alGet d k = some v := by
  unfold dictGet at h
  cases hal : alGet d k with
  | some w => rw [hal] at h; simpa using h
  | none => rw [hal] at h; simp at h

/-- Setting a key makes it readable. -/
theorem alGet_alSet_self {α : Type} :
    ∀ (d : List (String × α)) (k : String) (v : α), alGet (alSet d k v) k = some v
  | [], k, v => by simp [alGet, alSet]
  | p :: rest, k, v => by
    by_cases hp : p.1 == k
    · simp [alGet, alSet, hp]
    · simp [alGet, alSet, hp, alGet_alSet_self rest k v]

/-- Setting a key leaves the other keys unchanged. -/
theorem alGet_alSet_ne {α : Type} :
    ∀ (d : List (String × α)) (k k' : String) (v : α), k ≠ k' →
      alGet (alSet d k v) k' = alGet d k'
  | [], k, k', v, h => by
    simp [alGet, alSet]
    exact fun hk => absurd hk h
  | p :: rest, k, k', v, h => by
    by_cases hp : p.1 == k
    · have hp1 : p.1 = k := by simpa using hp
      have : ¬ (k == k') := by simpa using h
      simp [alGet, alSet, hp, this, hp1]
    · simp only [alSet, hp, if_false, Bool.false_eq_true]
      by_cases hp2 : p.1 == k'
      · simp [alGet, hp2]
      · simp [alGet, hp2, alGet_alSet_ne rest k k' v h]

/-- Every pair of an updated list is an old pair or the new binding. -/
theorem alSet_mem {α : Type} :
    ∀ (d : List (String × α)) (k : String) (v : α) (p : String × α),
      p ∈ alSet d k v → p ∈ d ∨ p = (k, v)
  | [], k, v, p, hp => by
    simp [alSet] at hp
    exact Or.inr hp
  | q :: rest, k, v, p, hp => by
    by_cases hq : q.1 == k
    · simp only [alSet, hq, if_true] at hp
      rcases List.mem_cons.mp hp with h1 | h2
      · exact Or.inr h1
      · exact Or.inl (List.mem_cons_of_mem q h2)
    · simp only [alSet, hq, Bool.false_eq_true, if_false] at hp
      rcases List.mem_cons.mp hp with h1 | h2
      · exact Or.inl (h1 ▸ List.mem_cons_self q rest)
      · rcases alSet_mem rest k v p h2 with h3 | h4
        · exact Or.inl (List.mem_cons_of_mem q h3)
        · exact Or.inr h4

/-- Updating a present key keeps the key list. -/
theorem alSet_keys_of_present {α : Type} :
    ∀ (d : List (String × α)) (k : String) (w v : α), alGet d k = some w →
      (alSet d k v).map Prod.fst = d.map Prod.fst
  | [], k, w, v, h => by simp [alGet] at h
  | p :: rest, k, w, v, h => by
    by_cases hp : p.1 == k
    · have hp1 : p.1 = k := by simpa using hp
      simp [alSet, hp, hp1]
    · rw [alGet, if_neg (by simpa using hp)] at h
      simp [alSet, hp, alSet_keys_of_present rest k w v h]

/-- Setting an absent key appends the binding. -/
theorem alSet_of_absent {α : Type} :
    ∀ (d : List (String × α)) (k : String) (v : α), alGet d k = none →
      alSet d k v = d ++ [(k, v)]
  | [], k, v, _ => by simp [alSet]
  | p :: rest, k, v, h => by
    by_cases hp : p.1 == k
    · rw [alGet, if_pos hp] at h; exact absurd h (by simp)
    · rw [alGet, if_neg (by simpa using hp)] at h
      simp [alSet, hp, alSet_of_absent rest k v h]

/-- An absent key is outside the key list. -/
theorem not_key_of_alGet_none {α : Type} :
    ∀ (d : List (String × α)) (k : String), alGet d k = none →
      k ∉ d.map Prod.fst
  | [], k, _ => by simp
  | p :: rest, k, h => by
    by_cases hp : p.1 == k
    · rw [alGet, if_pos hp] at h; exact absurd h (by simp)
    · rw [alGet, if_neg (by simpa using hp)] at h
      simp only [List.map_cons, List.mem_cons]
      push_neg
      exact ⟨fun he => absurd he.symm (by simpa using hp),
        not_key_of_alGet_none rest k h⟩

/-- On a list with distinct keys, membership determines the lookup. -/
theorem alGet_of_mem_nodup {α : Type} :
    ∀ (d : List (String × α)) (k : String) (v : α),
      (d.map Prod.fst).Nodup → (k, v) ∈ d → alGet d k = some v
  | [], k, v, _, hm => absurd hm (List.not_mem_nil (k, v))
  | p :: rest, k, v, hnd, hm => by
    rcases List.mem_cons.mp hm with h1 | h2
    · simp [alGet, ← h1]
    · have hk : k ∈ rest.map Prod.fst :=
        List.mem_map.mpr ⟨(k, v), h2, rfl⟩
      have hp : ¬ (p.1 == k) := by
        simp only [List.map_cons, List.nodup_cons] at hnd
        intro hb
        exact hnd.1 ((by simpa using hb : p.1 = k) ▸ hk)
      rw [alGet, if_neg hp]
      exact alGet_of_mem_nodup rest k v
        (by simp only [List.map_cons, List.nodup_cons] at hnd; exact hnd.2) h2

/-- A successful lookup comes from a member pair. -/
theorem mem_of_alGet {α : Type} :
    ∀ (d : List (String × α)) (k : String) (v : α), alGet d k = some v →
      (k, v) ∈ d
  | [], k, v, h => by simp [alGet] at h
  | p :: rest, k, v, h => by
    by_cases hp : p.1 == k
    · rw [alGet, if_pos hp] at h
      have : p = (k, v) := by
        cases p
        simp_all
      exact this ▸ List.mem_cons_self p rest
    · rw [alGet, if_neg hp] at h
      exact List.mem_cons_of_mem p (mem_of_alGet rest k v h)

/-- `pyIn` agrees with list membership. -/
theorem pyIn_iff_mem (a : String) : ∀ l : List String, pyIn a l = true ↔ a ∈ l
  | [] => by simp [pyIn]
  | x :: xs => by
    by_cases hx : x == a
    · have : x = a := by simpa using hx
      simp [pyIn, hx, this]
    · have hne : ¬ a = x := fun he => absurd (by simpa using he.symm) hx
      simp [pyIn, hx, pyIn_iff_mem a xs, hne]

/-- A passed coverage check means every registered type URI is listed. -/
theorem checkCoverage_ok :
    ∀ (pairs : List (String × String)) (all_type_uris : List String),
      checkCoverage pairs all_type_uris = .ok () →
      ∀ p ∈ pairs, p.1 ∈ all_type_uris
  | [], _, _, p, hp => absurd hp (List.not_mem_nil p)
  | q :: rest, all_type_uris, h, p, hp => by
    unfold checkCoverage at h
    by_cases hq : pyIn q.1 all_type_uris
    · rw [if_pos hq] at h
      rcases List.mem_cons.mp hp with h1 | h2
      · exact h1 ▸ (pyIn_iff_mem q.1 all_type_uris).mp hq
      · exact checkCoverage_ok rest all_type_uris h p h2
    · rw [if_neg hq] at h
      exact absurd h (by simp)

/-- A successful `FetchRequest.add` appends a fresh binding. -/
theorem add_ok {self self' : FetchRequest} {attrib : AttrInfo}
    (h : self.add attrib = .ok self') :
    alGet self.requested_attributes attrib.type_uri = none
    ∧ self' = { self with
        requested_attributes :=
          self.requested_attributes ++ [(attrib.type_uri, attrib)] } := by
  unfold FetchRequest.add at h
  by_cases hp : (alGet self.requested_attributes attrib.type_uri).isSome
  · rw [if_pos hp] at h
    exact absurd h (by simp)
  · rw [if_neg hp] at h
    have habs : alGet self.requested_attributes attrib.type_uri = none :=
      Option.not_isSome_iff_eq_none.mp hp
    refine ⟨habs, ?_⟩
    have := Except.ok.inj h
    rw [← this, alSet_of_absent _ _ _ habs]

/-- `parseTypeKeys` only ever adds attributes whose required flag is off. -/
theorem parseTypeKeys_required_false (full : List (String × String)) :
    ∀ (items : List (String × String)) (aliases : NamespaceMap)
      (self : FetchRequest) (aliases' : NamespaceMap) (self' : FetchRequest),
      parseTypeKeys full items aliases self = .ok (aliases', self') →
      (∀ p ∈ self.requested_attributes, p.2.required = false) →
      ∀ p ∈ self'.requested_attributes, p.2.required = false
  | [], aliases, self, aliases', self', h, hbase, p, hp => by
    unfold parseTypeKeys at h
    have h1 := Except.ok.inj h
    rw [show self' = self from congrArg Prod.snd h1.symm] at hp
    exact hbase p hp
  | (key, value) :: rest, aliases, self, aliases', self', h, hbase, p, hp => by
    unfold parseTypeKeys at h
    by_cases hk : strStartsWith key "type."
    · rw [if_pos hk] at h
      obtain ⟨⟨a1, aliases1⟩, hA, h⟩ := exceptBindOk h
      obtain ⟨count, hC, h⟩ := exceptBindOk h
      obtain ⟨self1, hAdd, h⟩ := exceptBindOk h
      obtain ⟨habs, hself1⟩ := add_ok hAdd
      refine parseTypeKeys_required_false full rest aliases1 self1 aliases' self'
        h ?_ p hp
      intro q hq
      rw [hself1] at hq
      rcases List.mem_append.mp hq with h1 | h2
      · exact hbase q h1
      · have : q = (value, ⟨value, count, false, some (strDrop key 5)⟩) := by
          simpa using h2
        rw [this]
    · rw [if_neg hk] at h
      exact parseTypeKeys_required_false full rest aliases self aliases' self'
        h hbase p hp

/-- `parseTypeKeys` preserves distinctness of the attribute keys. -/
theorem parseTypeKeys_nodup (full : List (String × String)) :
    ∀ (items : List (String × String)) (aliases : NamespaceMap)
      (self : FetchRequest) (aliases' : NamespaceMap) (self' : FetchRequest),
      parseTypeKeys full items aliases self = .ok (aliases', self') →
      (self.requested_attributes.map Prod.fst).Nodup →
      (self'.requested_attributes.map Prod.fst).Nodup
  | [], aliases, self, aliases', self', h, hbase => by
    unfold parseTypeKeys at h
    have h1 := Except.ok.inj h
    rw [show self' = self from congrArg Prod.snd h1.symm]
    exact hbase
  | (key, value) :: rest, aliases, self, aliases', self', h, hbase => by
    unfold parseTypeKeys at h
    by_cases hk : strStartsWith key "type."
    · rw [if_pos hk] at h
      obtain ⟨⟨a1, aliases1⟩, hA, h⟩ := exceptBindOk h
      obtain ⟨count, hC, h⟩ := exceptBindOk h
      obtain ⟨self1, hAdd, h⟩ := exceptBindOk h
      obtain ⟨habs, hself1⟩ := add_ok hAdd
      refine parseTypeKeys_nodup full rest aliases1 self1 aliases' self' h ?_
      rw [hself1]
      simp only [List.map_append, List.map_cons, List.map_nil]
      rw [List.nodup_append]
      exact ⟨hbase, List.nodup_singleton _,
        by
          intro x hx hy
          simp only [List.mem_singleton] at hy
          exact not_key_of_alGet_none _ _ habs (hy ▸ hx)⟩
    · rw [if_neg hk] at h
      exact parseTypeKeys_nodup full rest aliases self aliases' self' h hbase

/-- `markRequired` preserves the attribute key list. -/
theorem markRequired_keys :
    ∀ (uris : List String) (self self' : FetchRequest),
      markRequired uris self = .ok self' →
      self'.requested_attributes.map Prod.fst
        = self.requested_attributes.map Prod.fst
  | [], self, self', h => by
    unfold markRequired at h
    rw [show self' = self from (Except.ok.inj h).symm]
  | uri :: rest, self, self', h => by
    unfold markRequired at h
    cases halg : alGet self.requested_attributes uri with
    | none => rw [halg] at h; exact absurd h (by simp)
    | some a =>
      rw [halg] at h
      rw [markRequired_keys rest _ self' h]
      exact alSet_keys_of_present _ _ _ _ halg

/-- `markRequired` sets the required flag of exactly the listed type URIs,
leaving every other attribute untouched. -/
theorem markRequired_get :
    ∀ (uris : List String) (self self' : FetchRequest),
      markRequired uris self = .ok self' →
      ∀ u, alGet self'.requested_attributes u
        = (alGet self.requested_attributes u).map
            (fun a => if u ∈ uris then { a with required := true } else a)
  | [], self, self', h, u => by
    unfold markRequired at h
    rw [show self' = self from (Except.ok.inj h).symm]
    cases alGet self.requested_attributes u <;> simp
  | uri :: rest, self, self', h, u => by
    unfold markRequired at h
    cases halg : alGet self.requested_attributes uri with
    | none => rw [halg] at h; exact absurd h (by simp)
    | some a0 =>
      rw [halg] at h
      have ih := markRequired_get rest _ self' h u
      by_cases hu : u = uri
      · subst hu
        rw [ih, alGet_alSet_self, halg]
        by_cases hr : u ∈ rest <;> simp [hr]
      · rw [ih, alGet_alSet_ne _ _ _ _ (fun he => hu he.symm)]
        simp [List.mem_cons, hu]

/-- C6 counterexample: the claim's "if and only if" fails.  These wire
arguments have mode `fetch_request` and their only declared type URI appears
in the `required` list, so by the claim parsing must succeed; but
`FetchRequest.parseExtensionArgs` fails on the non-integer `count.a`. -/
theorem ax_C6_counterexample :
    alGet argsC6 "mode" = some "fetch_request"
    ∧ alGet argsC6 "type.a" = some "http://u/"
    ∧ alGet argsC6 "required" = some "a"
    ∧ (FetchRequest.make none).parseExtensionArgs argsC6
      = .error (.valueError "invalid literal for int() with base 10") :=
  ⟨rfl, rfl, rfl, rfl⟩

/-- C6 amended: an uncovered declared type URI is fatal, and that is all the
coverage check does.  Whenever parsing succeeds, every type URI registered
from a `type.<alias>` key occurs in the resolution of `required` or of
`if_available` (so a type URI in neither list forces a parse error), and
exactly the attributes whose type URI is resolved from the `required` list
carry `required = true`.  (Parsing can also fail for other malformations —
a non-integer count, an undeclared alias in either list, conflicting
declarations — so failure alone does not imply an uncovered type URI.) -/
theorem ax_C6_amended (ax_args : List (String × String)) (r : FetchRequest)
    (h : FetchRequest.parseExtensionArgs (FetchRequest.make none) ax_args
      = .ok r) :
    ∃ (m : NamespaceMap) (self1 : FetchRequest)
      (required if_available : List String),
      parseTypeKeys ax_args ax_args ⟨[]⟩ (FetchRequest.make none)
        = .ok (m, self1)
      ∧ toTypeURIs m (alGet ax_args "required") = .ok required
      ∧ toTypeURIs m (alGet ax_args "if_available") = .ok if_available
      ∧ (∀ p ∈ m.pairs, p.1 ∈ required ++ if_available)
      ∧ (∀ p ∈ r.requested_attributes, (p.2.required = true ↔ p.1 ∈ required)) := by
  unfold FetchRequest.parseExtensionArgs at h
  obtain ⟨u0, hMode, h⟩ := exceptBindOk h
  obtain ⟨⟨m, self1⟩, hParse, h⟩ := exceptBindOk h
  obtain ⟨required, hReq, h⟩ := exceptBindOk h
  obtain ⟨self2, hMark, h⟩ := exceptBindOk h
  obtain ⟨if_available, hIA, h⟩ := exceptBindOk h
  obtain ⟨u1, hCov, h⟩ := exceptBindOk h
  have hr : r = { self2 with update_url := alGet ax_args "update_url" } :=
    (Except.ok.inj h).symm
  refine ⟨m, self1, required, if_available, hParse, hReq, hIA, ?_, ?_⟩
  · exact checkCoverage_ok m.pairs (required ++ if_available) hCov
  · intro p hp
    have hkeys1 : (self1.requested_attributes.map Prod.fst).Nodup :=
      parseTypeKeys_nodup ax_args ax_args ⟨[]⟩ (FetchRequest.make none) m self1
        hParse (by simp [FetchRequest.make])
    have hkeys2 : (self2.requested_attributes.map Prod.fst).Nodup := by
      rw [markRequired_keys required self1 self2 hMark]
      exact hkeys1
    have hpr : p ∈ self2.requested_attributes := by
      rw [hr] at hp
      exact hp
    have hget2 : alGet self2.requested_attributes p.1 = some p.2 :=
      alGet_of_mem_nodup _ _ _ hkeys2 (by rw [Prod.mk.eta]; exact hpr)
    rw [markRequired_get required self1 self2 hMark p.1] at hget2
    cases hget1 : alGet self1.requested_attributes p.1 with
    | none =>
      rw [hget1] at hget2
      exact absurd hget2 (by simp)
    | some a0 =>
      rw [hget1] at hget2
      have ha0 : a0.required = false :=
        parseTypeKeys_required_false ax_args ax_args ⟨[]⟩
          (FetchRequest.make none) m self1 hParse
          (by simp [FetchRequest.make]) (p.1, a0) (mem_of_alGet _ _ _ hget1)
      have hp2 := Option.some.inj (by simpa using hget2)
      by_cases hmem : p.1 ∈ required
      · rw [if_pos hmem] at hp2
        exact ⟨fun _ => hmem, fun _ => by rw [← hp2]⟩
      · rw [if_neg hmem] at hp2
        refine ⟨fun hreq => ?_, fun hmem2 => absurd hmem2 hmem⟩
        rw [← hp2, ha0] at hreq
        exact absurd hreq (by simp)

/-- C6 witness: the amended statement at a concrete successful parse. -/
theorem ax_C6_witness :
    ∃ (m : NamespaceMap) (self1 : FetchRequest)
      (required if_available : List String),
      parseTypeKeys argsC6w argsC6w ⟨[]⟩ (FetchRequest.make none)
        = .ok (m, self1)
      ∧ toTypeURIs m (alGet argsC6w "required") = .ok required
      ∧ toTypeURIs m (alGet argsC6w "if_available") = .ok if_available
      ∧ (∀ p ∈ m.pairs, p.1 ∈ required ++ if_available)
      ∧ (∀ p ∈ parsedC6w.requested_attributes,
          (p.2.required = true ↔ p.1 ∈ required)) :=
  ax_C6_amended argsC6w parsedC6w rfl

/-- `List.range' s n` has `n` elements. -/
theorem range'_length : ∀ (n s : Nat), (List.range' s n).length = n
  | 0, _ => rfl
  | n + 1, s => by
    rw [List.range'_succ, List.length_cons, range'_length n (s + 1)]

/-- Positional access into `List.range' s n`. -/
theorem range'_getD : ∀ (n s j : Nat), j < n → (List.range' s n).getD j 0 = s + j
  | 0, _, j, hj => absurd hj (Nat.not_lt_zero j)
  | n + 1, s, 0, _ => by
    rw [List.range'_succ]
    rfl
  | n + 1, s, j + 1, hj => by
    rw [List.range'_succ]
    have := range'_getD n (s + 1) j (Nat.lt_of_succ_lt_succ hj)
    simpa [List.getD_cons_succ, Nat.add_assoc, Nat.add_comm 1 j] using this

/-- Membership in `List.range' s n`. -/
theorem mem_range' : ∀ (n s i : Nat), i ∈ List.range' s n ↔ s ≤ i ∧ i < s + n
  | 0, s, i => by simp
  | n + 1, s, i => by
    rw [List.range'_succ, List.mem_cons, mem_range' n (s + 1) i]
    omega

/-- A successful indexed-value read: as many values as indices, each one the
stored wire value of its index. -/
theorem readValuesLoop_ok_facts (ax_args : List (String × String)) (al : String) :
    ∀ (is : List Nat) (vs : List String),
      readValuesLoop ax_args al is = .ok vs →
      vs.length = is.length
      ∧ ∀ j, j < is.length →
          alGet ax_args ("value." ++ al ++ "." ++ toString (is.getD j 0))
            = some (vs.getD j "")
  | [], vs, h => by
    unfold readValuesLoop at h
    have : vs = [] := (Except.ok.inj h).symm
    subst this
    exact ⟨rfl, fun j hj => absurd hj (Nat.not_lt_zero j)⟩
  | i :: rest, vs, h => by
    unfold readValuesLoop at h
    obtain ⟨v, hv, h⟩ := exceptBindOk h
    obtain ⟨vs', hrest, h⟩ := exceptBindOk h
    have hvs : vs = v :: vs' := (Except.ok.inj h).symm
    subst hvs
    obtain ⟨hlen, hpt⟩ := readValuesLoop_ok_facts ax_args al rest vs' hrest
    refine ⟨by simp [hlen], fun j hj => ?_⟩
    cases j with
    | zero => simpa using alGet_of_dictGet hv
    | succ j' =>
      have := hpt j' (Nat.lt_of_succ_lt_succ hj)
      simpa using this

/-- A missing indexed value makes the indexed-value read fail. -/
theorem readValuesLoop_err (ax_args : List (String × String)) (al : String) :
    ∀ (is : List Nat) (i : Nat), i ∈ is →
      alGet ax_args ("value." ++ al ++ "." ++ toString i) = none →
      ∃ e, readValuesLoop ax_args al is = .error e
  | [], i, hi, _ => absurd hi (List.not_mem_nil i)
  | j :: rest, i, hi, hmiss => by
    unfold readValuesLoop
    cases hj : alGet ax_args ("value." ++ al ++ "." ++ toString j) with
    | none =>
      refine ⟨.keyError ("value." ++ al ++ "." ++ toString j), ?_⟩
      simp [dictGet, hj, Bind.bind, Except.bind]
    | some v =>
      have hir : i ∈ rest := by
        rcases List.mem_cons.mp hi with h1 | h2
        · rw [h1] at hmiss
          rw [hmiss] at hj
          exact absurd hj (by simp)
        · exact h2
      obtain ⟨e, he⟩ := readValuesLoop_err ax_args al rest i hir hmiss
      refine ⟨e, ?_⟩
      simp [dictGet, hj, Bind.bind, Except.bind, he]

/-- Singleton branch of `extractAXValues`, value present. -/
theorem extract_singleton_ok {ax_args : List (String × String)} {al v : String}
    (hc : alGet ax_args ("count." ++ al) = none)
    (hv : alGet ax_args ("value." ++ al) = some v) :
    extractAXValues ax_args al = .ok (true, if v == "" then [] else [v]) := by
  unfold extractAXValues
  rw [hc]
  simp [dictGet, hv, Bind.bind, Except.bind]

/-- Singleton branch of `extractAXValues`, value missing. -/
theorem extract_singleton_err {ax_args : List (String × String)} {al : String}
    (hc : alGet ax_args ("count." ++ al) = none)
    (hv : alGet ax_args ("value." ++ al) = none) :
    extractAXValues ax_args al = .error (.keyError ("value." ++ al)) := by
  unfold extractAXValues
  rw [hc]
  simp [dictGet, hv, Bind.bind, Except.bind]

/-- Counted branch of `extractAXValues`, malformed count. -/
theorem extract_counted_int_err {ax_args : List (String × String)}
    {al cs : String} {e0 : PyErr}
    (hc : alGet ax_args ("count." ++ al) = some cs)
    (hpi : pyInt cs = .error e0) :
    extractAXValues ax_args al = .error e0 := by
  unfold extractAXValues
  rw [hc]
  simp [hpi, Bind.bind, Except.bind]

/-- Counted branch of `extractAXValues`, missing indexed value. -/
theorem extract_counted_miss {ax_args : List (String × String)}
    {al cs : String} {N : Int} {i : Nat}
    (hc : alGet ax_args ("count." ++ al) = some cs)
    (hpi : pyInt cs = .ok N)
    (hlo : 1 ≤ i) (hhi : (i : Int) ≤ N)
    (hmiss : alGet ax_args ("value." ++ al ++ "." ++ toString i) = none) :
    ∃ e, extractAXValues ax_args al = .error e := by
  have hiN : i ∈ List.range' 1 N.toNat := by
    rw [mem_range']
    omega
  obtain ⟨e, he⟩ := readValuesLoop_err ax_args al (List.range' 1 N.toNat) i hiN hmiss
  refine ⟨e, ?_⟩
  unfold extractAXValues
  rw [hc]
  simp [hpi, Bind.bind, Except.bind, he]

/-- Counted branch of `extractAXValues`, successful result inverted. -/
theorem extract_counted_ok_inv {ax_args : List (String × String)}
    {al cs : String} {N : Int} {flag : Bool} {vs : List String}
    (hc : alGet ax_args ("count." ++ al) = some cs)
    (hpi : pyInt cs = .ok N)
    (h : extractAXValues ax_args al = .ok (flag, vs)) :
    flag = false ∧ readValuesLoop ax_args al (List.range' 1 N.toNat) = .ok vs := by
  unfold extractAXValues at h
  rw [hc] at h
  obtain ⟨N', hN', h⟩ := exceptBindOk h
  have hNN : N = N' := by
    rw [hpi] at hN'
    exact Except.ok.inj hN'
  subst hNN
  obtain ⟨vs', hloop, h⟩ := exceptBindOk h
  have hpair := Except.ok.inj h
  have hflag : flag = false := by
    have := congrArg Prod.fst hpair
    simpa using this.symm
  have hvs : vs' = vs := by
    have := congrArg Prod.snd hpair
    simpa using this
  exact ⟨hflag, hvs ▸ hloop⟩

/-- A successful collection pass extracted every registered alias. -/
theorem collectAXData_ok_extract (ax_args : List (String × String)) :
    ∀ (pairs : List (String × String)) (s0 : List String)
      (d0 : List (String × List String)) (s : List String)
      (d : List (String × List String)) (u a : String),
      collectAXData ax_args pairs s0 d0 = .ok (s, d) → (u, a) ∈ pairs →
      ∃ out, extractAXValues ax_args a = .ok out
  | [], _, _, _, _, u, a, _, hm => absurd hm (List.not_mem_nil (u, a))
  | (u', a') :: rest, s0, d0, s, d, u, a, h, hm => by
    unfold collectAXData at h
    obtain ⟨⟨flag, vs⟩, hx, h⟩ := exceptBindOk h
    rcases List.mem_cons.mp hm with h1 | h2
    · have ha : a = a' := congrArg Prod.snd h1
      exact ⟨(flag, vs), ha ▸ hx⟩
    · exact collectAXData_ok_extract ax_args rest _ _ s d u a h h2

/-- Keys outside the processed pair list keep their prior data binding. -/
theorem collectAXData_preserve (ax_args : List (String × String)) :
    ∀ (pairs : List (String × String)) (s0 : List String)
      (d0 : List (String × List String)) (s : List String)
      (d : List (String × List String)) (u : String),
      collectAXData ax_args pairs s0 d0 = .ok (s, d) →
      u ∉ pairs.map Prod.fst →
      alGet d u = alGet d0 u
  | [], s0, d0, s, d, u, h, _ => by
    unfold collectAXData at h
    have hp := Except.ok.inj h
    rw [show d = d0 from (congrArg Prod.snd hp).symm]
  | (u', a') :: rest, s0, d0, s, d, u, h, hnm => by
    unfold collectAXData at h
    obtain ⟨⟨flag, vs⟩, hx, h⟩ := exceptBindOk h
    simp only [List.map_cons, List.mem_cons] at hnm
    push_neg at hnm
    rw [collectAXData_preserve ax_args rest _ _ s d u h hnm.2]
    exact alGet_alSet_ne d0 u' u vs (fun he => hnm.1 he.symm)

/-- The singleton list only grows during collection. -/
theorem collectAXData_mono (ax_args : List (String × String)) :
    ∀ (pairs : List (String × String)) (s0 : List String)
      (d0 : List (String × List String)) (s : List String)
      (d : List (String × List String)) (x : String),
      collectAXData ax_args pairs s0 d0 = .ok (s, d) → x ∈ s0 → x ∈ s
  | [], s0, d0, s, d, x, h, hx => by
    unfold collectAXData at h
    have hp := Except.ok.inj h
    rw [show s = s0 from (congrArg Prod.fst hp).symm]
    exact hx
  | (u', a') :: rest, s0, d0, s, d, x, h, hx => by
    unfold collectAXData at h
    obtain ⟨⟨flag, vs⟩, hex, h⟩ := exceptBindOk h
    refine collectAXData_mono ax_args rest _ _ s d x h ?_
    by_cases hf : flag <;> simp [hf, List.mem_append, hx]

/-- On distinct type URIs, a successful collection stores each alias's
extracted values under its URI, and records singleton URIs. -/
theorem collectAXData_get (ax_args : List (String × String)) :
    ∀ (pairs : List (String × String)) (s0 : List String)
      (d0 : List (String × List String)) (s : List String)
      (d : List (String × List String)) (u a : String) (flag : Bool)
      (vs : List String),
      collectAXData ax_args pairs s0 d0 = .ok (s, d) →
      (pairs.map Prod.fst).Nodup →
      (u, a) ∈ pairs →
      extractAXValues ax_args a = .ok (flag, vs) →
      alGet d u = some vs ∧ (flag = true → u ∈ s)
  | [], _, _, _, _, u, a, _, _, _, _, hm, _ => absurd hm (List.not_mem_nil (u, a))
  | (u', a') :: rest, s0, d0, s, d, u, a, flag, vs, h, hnd, hm, hx => by
    unfold collectAXData at h
    obtain ⟨⟨flag', vs'⟩, hx', h⟩ := exceptBindOk h
    simp only [List.map_cons, List.nodup_cons] at hnd
    rcases List.mem_cons.mp hm with h1 | h2
    · have hu : u = u' := congrArg Prod.fst h1
      have ha : a = a' := congrArg Prod.snd h1
      rw [← ha, hx] at hx'
      have hpair := Except.ok.inj hx'
      have hflag : flag = flag' := congrArg Prod.fst hpair
      have hvs : vs = vs' := congrArg Prod.snd hpair
      subst hu
      constructor
      · rw [collectAXData_preserve ax_args rest _ _ s d u h hnd.1, hvs]
        exact alGet_alSet_self d0 u vs'
      · intro hft
        refine collectAXData_mono ax_args rest _ _ s d u h ?_
        rw [← hflag, hft]
        simp
    · obtain ⟨hd, hs⟩ := collectAXData_get ax_args rest _ _ s d u a flag vs
        h hnd.2 h2 hx
      exact ⟨hd, hs⟩

/-- A failing extraction for any registered alias fails the collection. -/
theorem collectAXData_err (ax_args : List (String × String)) :
    ∀ (pairs : List (String × String)) (s0 : List String)
      (d0 : List (String × List String)) (u a : String) (e0 : PyErr),
      (u, a) ∈ pairs →
      extractAXValues ax_args a = .error e0 →
      ∃ e, collectAXData ax_args pairs s0 d0 = .error e
  | [], _, _, u, a, _, hm, _ => absurd hm (List.not_mem_nil (u, a))
  | (u', a') :: rest, s0, d0, u, a, e0, hm, hx => by
    cases hx' : extractAXValues ax_args a' with
    | error e1 =>
      refine ⟨e1, ?_⟩
      unfold collectAXData
      simp [hx', Bind.bind, Except.bind]
    | ok out =>
      rcases List.mem_cons.mp hm with h1 | h2
      · have ha : a = a' := congrArg Prod.snd h1
        rw [ha, hx'] at hx
        exact absurd hx (by simp)
      · obtain ⟨e, he⟩ := collectAXData_err ax_args rest
          (if out.1 then s0 ++ [u'] else s0) (alSet d0 u' out.2) u a e0 h2 hx
        refine ⟨e, ?_⟩
        unfold collectAXData
        obtain ⟨f1, v1⟩ := out
        simp only [Bind.bind, Except.bind, hx']
        exact he

/-- A URI with no registered alias is not a key of the pair list. -/
theorem getAlias_none_not_key {m : NamespaceMap} {uri : String}
    (h : m.getAlias uri = none) : uri ∉ m.pairs.map Prod.fst := by
  unfold NamespaceMap.getAlias at h
  have hf : m.pairs.find? (fun p => p.1 == uri) = none := by
    cases hfind : m.pairs.find? (fun p => p.1 == uri) with
    | none => rfl
    | some p => rw [hfind] at h; exact absurd h (by simp)
  intro hmem
  obtain ⟨p, hp, hp1⟩ := List.mem_map.mp hmem
  have := List.find?_eq_none.mp hf p hp
  simp [hp1] at this

/-- A successful `addAlias` either leaves the registry unchanged or appends
the new pair, whose URI was previously unregistered. -/
theorem addAlias_ok {m : NamespaceMap} {uri al a : String} {m' : NamespaceMap}
    (h : m.addAlias uri al = .ok (a, m')) :
    m' = m ∨ (m'.pairs = m.pairs ++ [(uri, al)] ∧ m.getAlias uri = none) := by
  unfold NamespaceMap.addAlias at h
  split at h
  · split at h
    · injection Except.ok.inj h with h5 h6
      exact Or.inl h6.symm
    · exact absurd h (by simp)
  · split at h
    · split at h
      · injection Except.ok.inj h with h5 h6
        exact Or.inl h6.symm
      · exact absurd h (by simp)
    · injection Except.ok.inj h with h5 h6
      rename_i h3
      exact Or.inr ⟨by rw [← h6], h3⟩

/-- Registry construction from `type.*` keys keeps the type URIs distinct. -/
theorem buildAXAliases_nodup :
    ∀ (items : List (String × String)) (m0 m : NamespaceMap),
      buildAXAliases items m0 = .ok m →
      (m0.pairs.map Prod.fst).Nodup → (m.pairs.map Prod.fst).Nodup
  | [], m0, m, h, h0 => by
    unfold buildAXAliases at h
    rw [show m = m0 from (Except.ok.inj h).symm]
    exact h0
  | (key, value) :: rest, m0, m, h, h0 => by
    unfold buildAXAliases at h
    by_cases hk : strStartsWith key "type."
    · rw [if_pos hk] at h
      cases hA : m0.addAlias value (strDrop key 5) with
      | error e =>
        rw [hA] at h
        exact absurd h (by simp)
      | ok p =>
        obtain ⟨p1, p2⟩ := p
        rw [hA] at h
        refine buildAXAliases_nodup rest p2 m h ?_
        rcases addAlias_ok hA with h1 | ⟨h2, h3⟩
        · rw [h1]
          exact h0
        · rw [h2]
          simp only [List.map_append, List.map_cons, List.map_nil]
          rw [List.nodup_append]
          refine ⟨h0, List.nodup_singleton _, ?_⟩
          intro x hx hy
          simp only [List.mem_singleton] at hy
          exact getAlias_none_not_key h3 (hy ▸ hx)
    · rw [if_neg hk] at h
      exact buildAXAliases_nodup rest m0 m h h0

/-- C7: per-alias decoding behaviour of `parseAXValues`.  For every alias
registered by a `type.<alias>` key: with no `count.<alias>` key, a missing
`value.<alias>` fails the parse, and on success the type URI is recorded as
a singleton whose value sequence is empty for the empty string and the
one-element list otherwise; with a `count.<alias>` key, a non-integer count
fails the parse, a missing `value.<alias>.<i>` for any `1 ≤ i ≤ N` fails
the parse, and on success exactly the values `value.<alias>.1` through
`value.<alias>.N` are stored in order under the type URI. -/
theorem ax_C7_parse_values (ax_args : List (String × String))
    (m : NamespaceMap) (type_uri al : String)
    (hm : buildAXAliases ax_args ⟨[]⟩ = .ok m)
    (hmem : (type_uri, al) ∈ m.pairs) :
    (alGet ax_args ("count." ++ al) = none →
      (alGet ax_args ("value." ++ al) = none →
        ∃ e, parseAXValues ax_args = .error e)
      ∧ (∀ v, alGet ax_args ("value." ++ al) = some v →
          ∀ s d, parseAXValues ax_args = .ok (s, d) →
            type_uri ∈ s
            ∧ alGet d type_uri = some (if v == "" then [] else [v])))
    ∧ (∀ cs, alGet ax_args ("count." ++ al) = some cs →
        (∀ e0, pyInt cs = .error e0 → ∃ e, parseAXValues ax_args = .error e)
        ∧ (∀ N : Int, pyInt cs = .ok N →
            ((∃ i : Nat, 1 ≤ i ∧ (i : Int) ≤ N
                ∧ alGet ax_args ("value." ++ al ++ "." ++ toString i) = none) →
              ∃ e, parseAXValues ax_args = .error e)
            ∧ (∀ s d, parseAXValues ax_args = .ok (s, d) →
                ∃ vs, alGet d type_uri = some vs ∧ vs.length = N.toNat
                  ∧ ∀ j, j < vs.length →
                      alGet ax_args ("value." ++ al ++ "." ++ toString (j + 1))
                        = some (vs.getD j "")))) := by
  have hpeq : parseAXValues ax_args = collectAXData ax_args m.pairs [] [] := by
    unfold parseAXValues
    rw [hm]
    rfl
  have hnd : (m.pairs.map Prod.fst).Nodup :=
    buildAXAliases_nodup ax_args ⟨[]⟩ m hm (by simp)
  refine ⟨fun hc => ⟨fun hv => ?_, fun v hv s d hok => ?_⟩,
    fun cs hc => ⟨fun e0 hpi => ?_,
      fun N hpi => ⟨fun hmiss => ?_, fun s d hok => ?_⟩⟩⟩
  · obtain ⟨e, he⟩ := collectAXData_err ax_args m.pairs [] [] type_uri al _
      hmem (extract_singleton_err hc hv)
    exact ⟨e, by rw [hpeq]; exact he⟩
  · rw [hpeq] at hok
    have hx := extract_singleton_ok hc hv
    obtain ⟨hd, hs⟩ := collectAXData_get ax_args m.pairs [] [] s d type_uri al
      true (if v == "" then [] else [v]) hok hnd hmem hx
    exact ⟨hs rfl, hd⟩
  · obtain ⟨e, he⟩ := collectAXData_err ax_args m.pairs [] [] type_uri al _
      hmem (extract_counted_int_err hc hpi)
    exact ⟨e, by rw [hpeq]; exact he⟩
  · obtain ⟨i, h1, h2, h3⟩ := hmiss
    obtain ⟨e0, hx⟩ := extract_counted_miss hc hpi h1 h2 h3
    obtain ⟨e, he⟩ := collectAXData_err ax_args m.pairs [] [] type_uri al e0
      hmem hx
    exact ⟨e, by rw [hpeq]; exact he⟩
  · rw [hpeq] at hok
    obtain ⟨⟨flag, vs⟩, hx⟩ := collectAXData_ok_extract ax_args m.pairs [] []
      s d type_uri al hok hmem
    obtain ⟨hflag, hloop⟩ := extract_counted_ok_inv hc hpi hx
    obtain ⟨hlen, hpt⟩ := readValuesLoop_ok_facts ax_args al _ vs hloop
    obtain ⟨hd, -⟩ := collectAXData_get ax_args m.pairs [] [] s d type_uri al
      flag vs hok hnd hmem hx
    refine ⟨vs, hd, by rw [hlen, range'_length], fun j hj => ?_⟩
    have hj2 : j < (List.range' 1 N.toNat).length := by
      rw [← hlen]
      exact hj
    have hval := hpt j hj2
    rw [range'_getD N.toNat 1 j (by rw [range'_length] at hj2; exact hj2)]
      at hval
    rw [Nat.add_comm 1 j] at hval
    exact hval

/-- C7 witness: the decoding statement at a concrete counted input. -/
theorem ax_C7_witness :
    (alGet argsC7w ("count." ++ "a") = none →
      (alGet argsC7w ("value." ++ "a") = none →
        ∃ e, parseAXValues argsC7w = .error e)
      ∧ (∀ v, alGet argsC7w ("value." ++ "a") = some v →
          ∀ s d, parseAXValues argsC7w = .ok (s, d) →
            "http://u/" ∈ s
            ∧ alGet d "http://u/" = some (if v == "" then [] else [v])))
    ∧ (∀ cs, alGet argsC7w ("count." ++ "a") = some cs →
        (∀ e0, pyInt cs = .error e0 → ∃ e, parseAXValues argsC7w = .error e)
        ∧ (∀ N : Int, pyInt cs = .ok N →
            ((∃ i : Nat, 1 ≤ i ∧ (i : Int) ≤ N
                ∧ alGet argsC7w ("value." ++ "a" ++ "." ++ toString i) = none) →
              ∃ e, parseAXValues argsC7w = .error e)
            ∧ (∀ s d, parseAXValues argsC7w = .ok (s, d) →
                ∃ vs, alGet d "http://u/" = some vs ∧ vs.length = N.toNat
                  ∧ ∀ j, j < vs.length →
                      alGet argsC7w ("value." ++ "a" ++ "." ++ toString (j + 1))
                        = some (vs.getD j "")))) :=
  ax_C7_parse_values argsC7w ⟨[("http://u/", "a")]⟩ "http://u/" "a" rfl
    (by simp)
